import Mathlib

/-!
# go-watchdog: verification of the probe-to-incident pipeline

Shallow embedding of the core of the `Ameprizzo/go-watchdog` repository:
the HTTP probe classifier (`monitor.CheckSite`), the up/down transition
detector (`notifier.SiteStatusTracker.CheckAndNotify`), the incident
tracking block of `runChecks` (cmd/watchdog), the daily aggregation and
retention services (`internal/database/analytics.go`), and the summary
upsert (`UptimeSummaryRepository.Create`).

Time is modelled as seconds since the epoch (`Int`), with calendar days of
86400 seconds (the Go code works in UTC for aggregation; leap seconds and
DST are outside the model).  Go `int64` values are modelled as `Int`; Go
`int64` division truncates toward zero, which is `Int.tdiv`.  `float64`
arithmetic on averages/percentages is modelled as exact rationals `ℚ`.
-/

namespace Watchdog

/-- Seconds in one calendar day. -/
def secondsPerDay : Int := 86400

/-- Calendar day number of a timestamp (floor division). -/
def dayOf (t : Int) : Int := t.fdiv secondsPerDay

/-- First instant (inclusive) of calendar day `d`: midnight.
Mirrors `time.Date(y, m, d, 0, 0, 0, 0, time.UTC)` in `GenerateDailySummary`. -/
def dayStart (d : Int) : Int := d * secondsPerDay

/-- Last instant (inclusive) of calendar day `d`, at second resolution.
Mirrors `startTime.AddDate(0, 0, 1).Add(-time.Nanosecond)`. -/
def dayEnd (d : Int) : Int := d * secondsPerDay + (secondsPerDay - 1)

/-! ## Data model (internal/database/models.go) -/

/-- One row of `uptime_records` (a persisted ProbeResult). -/
structure UptimeRecord where
  siteID : Int
  timestamp : Int
  statusCode : Int
  isUp : Bool
  latencyMs : Int
deriving DecidableEq, Repr

/-- One row of `downtime_incidents`.  `endTime = none` means the incident
is still open (`end_time IS NULL`). -/
structure DowntimeIncident where
  id : Int
  siteID : Int
  startTime : Int
  endTime : Option Int
  durationSeconds : Int
deriving DecidableEq, Repr

/-- One row of `uptime_summary` (a DailySummary); `date` is a day number.
Only the computed value columns are modelled (not `created_at`/`updated_at`). -/
structure UptimeSummary where
  siteID : Int
  date : Int
  totalChecks : Nat
  successfulChecks : Nat
  failedChecks : Nat
  uptimePercentage : ℚ
  avgLatencyMs : ℚ
  minLatencyMs : Int
  maxLatencyMs : Int
  downtimeMinutes : Int
  incidentCount : Nat
deriving DecidableEq, Repr

/-! ## Probe (internal/monitor/monitor.go, CheckSite) -/

/-- Outcome of the HTTP layer for one probe: either a transport error
(`client.Get` returned `err != nil`) or a response with a status code. -/
inductive HTTPOutcome where
  | transportError
  | response (status : Int)
deriving DecidableEq, Repr

/-- `types.Result` / `monitor.Result`: the outcome of one status check. -/
structure ProbeResult where
  name : String
  url : String
  statusCode : Int
  latencyMs : Int
  isUp : Bool
deriving DecidableEq, Repr

/-- `monitor.CheckSite`: classify one probe outcome into a Result.
Go: `if err != nil || resp.StatusCode >= 400 { return Result{StatusCode: 0,
IsUp: false, ...} }` else `return Result{StatusCode: resp.StatusCode,
IsUp: true, ...}`. -/
def checkSite (name url : String) (latencyMs : Int) (outcome : HTTPOutcome) : ProbeResult :=
  match outcome with
  | .transportError =>
      { name := name, url := url, statusCode := 0, latencyMs := latencyMs, isUp := false }
  | .response s =>
      if 400 ≤ s then
        { name := name, url := url, statusCode := 0, latencyMs := latencyMs, isUp := false }
      else
        { name := name, url := url, statusCode := s, latencyMs := latencyMs, isUp := true }

/-! ## Transition detector (internal/notifier, SiteStatusTracker.CheckAndNotify) -/

/-- Transition event fired to the notification channels: `went-down`
(`sendNotifications(result, "down", ...)`) or `recovered` (`"up"`). -/
inductive TransitionEvent where
  | wentDown
  | recovered
deriving DecidableEq, Repr

/-- The tracker's `previousState map[string]bool`, as an association list. -/
abbrev StateMap := List (String × Bool)

/-- Go map read `previousStatus, existed := st.previousState[name]`:
`none` models `existed = false`. -/
def lookupState : StateMap → String → Option Bool
  | [], _ => none
  | (k, v) :: rest, name => if k = name then some v else lookupState rest name

/-- Go map write `st.previousState[name] = isUp`. -/
def setState : StateMap → String → Bool → StateMap
  | [], name, v => [(name, v)]
  | (k, w) :: rest, name, v =>
      if k = name then (k, v) :: rest else (k, w) :: setState rest name v

/-- `SiteStatusTracker.CheckAndNotify`: record the new state, and emit a
transition event only when the target existed in the map and its state
changed.  Go: `if !existed || previousStatus == result.IsUp { return }`,
then `down` when `!result.IsUp`, else `up`. -/
def checkAndNotify (prev : StateMap) (name : String) (isUp : Bool) :
    StateMap × Option TransitionEvent :=
  let previousStatus := lookupState prev name
  let newState := setState prev name isUp
  match previousStatus with
  | none => (newState, none)
  | some p =>
      if p = isUp then (newState, none)
      else if isUp then (newState, some .recovered)
      else (newState, some .wentDown)

/-! ## Incident ledger (runChecks in cmd/watchdog + IncidentRepository) -/

/-- `WHERE site_id = ? AND end_time IS NULL` condition of `GetOngoing`. -/
def isOpenFor (sid : Int) (i : DowntimeIncident) : Bool :=
  i.siteID == sid && i.endTime.isNone

/-- Selection step realizing `ORDER BY start_time DESC LIMIT 1`: keep the
candidate with the latest start time. -/
def pickLatest (acc : Option DowntimeIncident) (i : DowntimeIncident) :
    Option DowntimeIncident :=
  match acc with
  | none => some i
  | some j => if j.startTime < i.startTime then some i else some j

/-- `IncidentRepository.GetOngoing`: the open incident for the site with
the latest start time (`ORDER BY start_time DESC LIMIT 1`), or `none`
(`sql.ErrNoRows` is mapped to `nil, nil`). -/
def getOngoing (sid : Int) (incs : List DowntimeIncident) : Option DowntimeIncident :=
  (incs.filter (isOpenFor sid)).foldl pickLatest none

/-- The incident table plus the auto-increment id counter. -/
structure IncidentStore where
  incidents : List DowntimeIncident
  nextID : Int
deriving DecidableEq, Repr

/-- `IncidentRepository.Update` as used by `runChecks` on recovery: set
`end_time = now` and `duration_seconds = end_time - start_time` on the row
with the ongoing incident's id (`UPDATE ... WHERE id = ?`). -/
def closeIncident (now : Int) (ongoingID : Int) (incs : List DowntimeIncident) :
    List DowntimeIncident :=
  incs.map fun i =>
    if i.id = ongoingID then
      { i with endTime := some now, durationSeconds := now - i.startTime }
    else i

/-- The incident-tracking block of `runChecks` for one probe result:
if the site is down, create a new open incident only when `GetOngoing`
finds none; if the site is up, close the ongoing incident when one exists. -/
def processIncidentResult (now sid : Int) (isUp : Bool) (store : IncidentStore) :
    IncidentStore :=
  if !isUp then
    match getOngoing sid store.incidents with
    | none =>
        { incidents := store.incidents ++
            [{ id := store.nextID, siteID := sid, startTime := now,
               endTime := none, durationSeconds := 0 }],
          nextID := store.nextID + 1 }
    | some _ => store
  else
    match getOngoing sid store.incidents with
    | none => store
    | some ongoing =>
        { store with incidents := closeIncident now ongoing.id store.incidents }

/-- One probe observation handed to the incident tracking block. -/
structure ProbeObservation where
  now : Int
  siteID : Int
  isUp : Bool
deriving DecidableEq, Repr

/-- Sequentially process a list of probe observations against the store,
as the per-result loop of `runChecks` does across rounds. -/
def processAll (obs : List ProbeObservation) (store : IncidentStore) : IncidentStore :=
  obs.foldl (fun st o => processIncidentResult o.now o.siteID o.isUp st) store

/-- Number of open incidents a site has in the table. -/
def countOpen (sid : Int) (incs : List DowntimeIncident) : Nat :=
  (incs.filter (isOpenFor sid)).length

/-! ## Result store queries (internal/database/notification_repo.go, uptime part) -/

/-- `UptimeRepository.GetByDateRange`: `WHERE site_id = ? AND timestamp
BETWEEN ? AND ?` (both bounds inclusive). -/
def uptimeGetByDateRange (sid s e : Int) (rows : List UptimeRecord) : List UptimeRecord :=
  rows.filter fun r => r.siteID == sid && decide (s ≤ r.timestamp) && decide (r.timestamp ≤ e)

/-- `IncidentRepository.GetByDateRange`: `WHERE site_id = ? AND start_time
BETWEEN ? AND ?` — filters on the incident's start time only. -/
def incidentGetByDateRange (sid s e : Int) (incs : List DowntimeIncident) :
    List DowntimeIncident :=
  incs.filter fun i => i.siteID == sid && decide (s ≤ i.startTime) && decide (i.startTime ≤ e)

/-- `UptimeRepository.DeleteOlderThan`: `cutoffTime := time.Now().AddDate(0,
0, -days)` then `DELETE FROM uptime_records WHERE timestamp < ?`.  Returns
the surviving rows and the number of deleted rows (`RowsAffected`). -/
def uptimeDeleteOlderThan (days : Int) (now : Int) (rows : List UptimeRecord) :
    List UptimeRecord × Nat :=
  let cutoffTime := now - days * secondsPerDay
  ((rows.filter fun r => !decide (r.timestamp < cutoffTime)),
   (rows.filter fun r => decide (r.timestamp < cutoffTime)).length)

/-! ## Daily aggregation (internal/database/analytics.go, GenerateDailySummary) -/

/-- `int64(^uint64(0) >> 1)`: the max `int64`, used as the sentinel initial
value for the minimum-latency scan. -/
def int64Max : Int := 9223372036854775807

/-- Accumulator of the metrics loop in `GenerateDailySummary`. -/
structure LatencyAcc where
  successfulChecks : Nat
  totalLatency : Int
  minLatency : Int
  maxLatency : Int
deriving DecidableEq, Repr

/-- The success condition of the metrics loop:
`record.IsUp && record.StatusCode >= 200 && record.StatusCode < 300`. -/
def is2xxSuccess (r : UptimeRecord) : Bool :=
  r.isUp && decide (200 ≤ r.statusCode) && decide (r.statusCode < 300)

/-- One iteration of the metrics loop: count a success on `is2xxSuccess`,
and fold the latency sum/min/max over records with `record.LatencyMs > 0`. -/
def summaryStep (acc : LatencyAcc) (r : UptimeRecord) : LatencyAcc :=
  let acc1 :=
    if is2xxSuccess r then
      { acc with successfulChecks := acc.successfulChecks + 1 }
    else acc
  if decide (0 < r.latencyMs) then
    { acc1 with
      totalLatency := acc1.totalLatency + r.latencyMs
      minLatency := if r.latencyMs < acc1.minLatency then r.latencyMs else acc1.minLatency
      maxLatency := if acc1.maxLatency < r.latencyMs then r.latencyMs else acc1.maxLatency }
  else acc1

/-- The per-incident contribution to `downtimeMinutes`:
`if incident.DurationSeconds > 0 { downtimeMinutes += incident.DurationSeconds / 60 }`
(Go `int64` division truncates toward zero). -/
def downtimeStep (dm : Int) (i : DowntimeIncident) : Int :=
  if decide (0 < i.durationSeconds) then dm + i.durationSeconds.tdiv 60 else dm

/-- `AnalyticsService.GenerateDailySummary` for one site and one day,
reading the given uptime and incident tables.  Returns `none` when the day
has no uptime records for the site (the Go code logs and returns `nil`
without writing a summary). -/
def generateDailySummary (sid d : Int) (uptimeRows : List UptimeRecord)
    (incidentRows : List DowntimeIncident) : Option UptimeSummary :=
  let startTime := dayStart d
  let endTime := dayEnd d
  let records := uptimeGetByDateRange sid startTime endTime uptimeRows
  if records.isEmpty then none
  else
    let totalChecks := records.length
    let acc := records.foldl summaryStep ⟨0, 0, int64Max, 0⟩
    let failedChecks := totalChecks - acc.successfulChecks
    let uptimePercentage : ℚ := ((acc.successfulChecks : ℚ) / (totalChecks : ℚ)) * 100
    let avgLatency : ℚ :=
      if 0 < totalChecks then (acc.totalLatency : ℚ) / (totalChecks : ℚ) else 0
    let minLatency := if acc.minLatency = int64Max then 0 else acc.minLatency
    let incidents := incidentGetByDateRange sid startTime endTime incidentRows
    let incidentCount := incidents.length
    let downtimeMinutes := incidents.foldl downtimeStep 0
    some
      { siteID := sid, date := d, totalChecks := totalChecks,
        successfulChecks := acc.successfulChecks, failedChecks := failedChecks,
        uptimePercentage := uptimePercentage, avgLatencyMs := avgLatency,
        minLatencyMs := minLatency, maxLatencyMs := acc.maxLatency,
        downtimeMinutes := downtimeMinutes, incidentCount := incidentCount }

/-! ## Summary upsert (internal/database/repositories.go, UptimeSummaryRepository.Create) -/

/-- The `WHERE site_id = ? AND date = ?` key match used by `Create`. -/
def summaryKeyMatches (s r : UptimeSummary) : Bool :=
  r.siteID == s.siteID && r.date == s.date

/-- `UptimeSummaryRepository.Create`: if a row for (site, date) exists,
`UPDATE` all its computed columns; otherwise `INSERT` a new row. -/
def createSummary (s : UptimeSummary) (table : List UptimeSummary) : List UptimeSummary :=
  if table.any (summaryKeyMatches s) then
    table.map fun r => if summaryKeyMatches s r then s else r
  else
    table ++ [s]

/-- Number of summary rows with a given (site, date) key. -/
def countKey (sid d : Int) (table : List UptimeSummary) : Nat :=
  (table.filter fun r => r.siteID == sid && r.date == d).length

/-- One run of daily aggregation for a site and day: compute the summary
from the stores and upsert it (no write when the day has no records). -/
def runAggregation (sid d : Int) (uptimeRows : List UptimeRecord)
    (incidentRows : List DowntimeIncident) (table : List UptimeSummary) :
    List UptimeSummary :=
  match generateDailySummary sid d uptimeRows incidentRows with
  | none => table
  | some s => createSummary s table

/-! ## MTTR (internal/database/analytics.go, GetMTTR) -/

/-- `AnalyticsService.GetMTTR` on the incidents of a period: sum
`duration_seconds` over incidents with a non-nil `end_time`, divided
(Go `int64` truncating division) by the count of all incidents in the
period; `0` when there are none. -/
def getMTTR (incidents : List DowntimeIncident) : Int :=
  if incidents.isEmpty then 0
  else
    (incidents.foldl
        (fun (acc : Int) (i : DowntimeIncident) =>
          if i.endTime.isSome then acc + i.durationSeconds else acc) 0).tdiv
      (incidents.length : Int)

/-- `GetMTTR(siteID, startTime, endTime)`: `GetByDateRange` then the mean. -/
def getMTTRForPeriod (sid s e : Int) (incs : List DowntimeIncident) : Int :=
  getMTTR (incidentGetByDateRange sid s e incs)

/-! ## Retention cleanup (internal/database/analytics.go, CleanupOldData) -/

/-- The five deletion categories of `CleanupOldData`, in source order. -/
inductive CleanupCategory where
  | uptimeRecords
  | incidents
  | summaries
  | notificationLogs
  | auditLogs
deriving DecidableEq, Repr

/-- The fixed order in which `CleanupOldData` runs the deletions. -/
def cleanupOrder : List CleanupCategory :=
  [.uptimeRecords, .incidents, .summaries, .notificationLogs, .auditLogs]

/-- `AnalyticsService.CleanupOldData`, abstracted over the five repository
`DeleteOlderThan` calls (`del` returns the deleted-row count or an error):
run them in source order, returning on the first error (`if err != nil
{ return err }` after each call), and on success collect the per-category
counts reported by the final log line. -/
def cleanupOldData (del : CleanupCategory → Except String Int) :
    Except String (List (CleanupCategory × Int)) :=
  match del .uptimeRecords with
  | .error e => .error e
  | .ok deletedUptime =>
    match del .incidents with
    | .error e => .error e
    | .ok deletedIncidents =>
      match del .summaries with
      | .error e => .error e
      | .ok deletedSummaries =>
        match del .notificationLogs with
        | .error e => .error e
        | .ok deletedNotifications =>
          match del .auditLogs with
          | .error e => .error e
          | .ok deletedAuditLogs =>
            .ok [(.uptimeRecords, deletedUptime), (.incidents, deletedIncidents),
                 (.summaries, deletedSummaries), (.notificationLogs, deletedNotifications),
                 (.auditLogs, deletedAuditLogs)]

/-! ## Spec-side comparison definitions (from the specification's words) -/

/-- The uptime records of site `sid` on day `d` (the range queried by
`GenerateDailySummary`). -/
def dayRecords (sid d : Int) (rows : List UptimeRecord) : List UptimeRecord :=
  uptimeGetByDateRange sid (dayStart d) (dayEnd d) rows

/-- The incidents of site `sid` starting on day `d` (the range queried by
`GenerateDailySummary`). -/
def dayIncidents (sid d : Int) (incs : List DowntimeIncident) : List DowntimeIncident :=
  incidentGetByDateRange sid (dayStart d) (dayEnd d) incs

/-- The latencies of the records with non-zero latency. -/
def nonzeroLatencies (records : List UptimeRecord) : List Int :=
  (records.filter fun r => decide (0 < r.latencyMs)).map fun r => r.latencyMs

/-- The average latency as the specification words it ("the average equals
the sum of the non-zero latencies divided by the number of records whose
latency is non-zero"): written from the spec, to compare with the code. -/
def claimedAvgLatency (records : List UptimeRecord) : ℚ :=
  ((nonzeroLatencies records).sum : ℚ) / ((nonzeroLatencies records).length : ℚ)

/-- "Incident overlapping the day", as the specification words it: it
started no later than the day's end and (if closed) ended no earlier than
the day's start.  Written from the spec, to compare with the code. -/
def claimedOverlaps (d : Int) (i : DowntimeIncident) : Bool :=
  decide (i.startTime ≤ dayEnd d) &&
    (match i.endTime with
     | none => true
     | some e => decide (dayStart d ≤ e))

/-- "`downtime_minutes` summed from incidents overlapping the day", as the
specification's claim words it: written from the spec, to compare with the
code. -/
def claimedDowntimeMinutes (sid d : Int) (incs : List DowntimeIncident) : Int :=
  ((incs.filter fun i => i.siteID == sid && claimedOverlaps d i).map
    fun i => i.durationSeconds.tdiv 60).sum

/-! ## Helper lemmas -/

theorem lookupState_setState_self (m : StateMap) (k : String) (v : Bool) :
    lookupState (setState m k v) k = some v := by
  induction m with
  | nil => simp [setState, lookupState]
  | cons h t ih =>
      obtain ⟨k', w⟩ := h
      by_cases hk : k' = k <;> simp [setState, lookupState, hk, ih]

theorem foldl_pickLatest_isSome (l : List DowntimeIncident) (a : DowntimeIncident) :
    (l.foldl pickLatest (some a)).isSome := by
  induction l generalizing a with
  | nil => rfl
  | cons x t ih =>
      rw [List.foldl_cons]
      by_cases h : a.startTime < x.startTime <;> simp [pickLatest, h] <;> exact ih _

theorem getOngoing_eq_none_iff (sid : Int) (incs : List DowntimeIncident) :
    getOngoing sid incs = none ↔ countOpen sid incs = 0 := by
  unfold getOngoing countOpen
  cases hf : incs.filter (isOpenFor sid) with
  | nil => simp
  | cons h t =>
      simp only [List.foldl_cons, List.length_cons, pickLatest]
      constructor
      · intro hnone
        have hsome := foldl_pickLatest_isSome t h
        rw [hnone] at hsome
        simp at hsome
      · intro h2
        exact absurd h2 (by omega)

theorem countOpen_cons (sid : Int) (a : DowntimeIncident) (l : List DowntimeIncident) :
    countOpen sid (a :: l) = countOpen sid l + (if isOpenFor sid a then 1 else 0) := by
  simp only [countOpen, List.filter_cons]
  split <;> simp [Nat.add_comm]

theorem countOpen_append_one (sid : Int) (l : List DowntimeIncident) (x : DowntimeIncident) :
    countOpen sid (l ++ [x]) = countOpen sid l + (if isOpenFor sid x then 1 else 0) := by
  simp only [countOpen, List.filter_append, List.length_append, List.filter_cons,
    List.filter_nil]
  split <;> simp

theorem countOpen_closeIncident_le (sid now gid : Int) (incs : List DowntimeIncident) :
    countOpen sid (closeIncident now gid incs) ≤ countOpen sid incs := by
  induction incs with
  | nil => exact Nat.le_refl _
  | cons i t ih =>
      rw [closeIncident, List.map_cons, ← closeIncident, countOpen_cons, countOpen_cons]
      have hih := ih
      by_cases hid : i.id = gid
      · have hclosed : isOpenFor sid
            { i with endTime := some now, durationSeconds := now - i.startTime } = false := by
          simp [isOpenFor]
        rw [if_pos hid, hclosed]
        simp only [Bool.false_eq_true, if_false]
        split <;> omega
      · rw [if_neg hid]
        split <;> omega

theorem processIncidentResult_countOpen_le (now sid : Int) (isUp : Bool)
    (store : IncidentStore) (h : ∀ t, countOpen t store.incidents ≤ 1) (t : Int) :
    countOpen t (processIncidentResult now sid isUp store).incidents ≤ 1 := by
  unfold processIncidentResult
  cases isUp with
  | true =>
      rw [if_neg (by simp)]
      cases hg : getOngoing sid store.incidents with
      | none => exact h t
      | some g =>
          exact Nat.le_trans (countOpen_closeIncident_le t now g.id store.incidents) (h t)
  | false =>
      rw [if_pos (by simp)]
      cases hg : getOngoing sid store.incidents with
      | none =>
          show countOpen t (store.incidents ++ [⟨store.nextID, sid, now, none, 0⟩]) ≤ 1
          rw [countOpen_append_one]
          by_cases ht : sid = t
          · subst ht
            rw [(getOngoing_eq_none_iff sid store.incidents).mp hg]
            simp [isOpenFor]
          · have hb : isOpenFor t (⟨store.nextID, sid, now, none, 0⟩ : DowntimeIncident)
                = false := by
              simp [isOpenFor, ht]
            rw [hb]
            simpa using h t
      | some g => exact h t

theorem processAll_invariant (obs : List ProbeObservation) (store : IncidentStore)
    (h : ∀ t, countOpen t store.incidents ≤ 1) (t : Int) :
    countOpen t (processAll obs store).incidents ≤ 1 := by
  induction obs generalizing store with
  | nil => exact h t
  | cons o rest ih =>
      rw [processAll, List.foldl_cons, ← processAll]
      exact ih _ (fun t2 => processIncidentResult_countOpen_le o.now o.siteID o.isUp store h t2)

/-! ## C1, C2, C8: detector and incident-ledger theorems -/

/-- **C1 (counterexample)**: the claim "the first probe result ever observed
for a target produces no transition event and creates no Incident,
regardless of whether it is up or down" is false: for a first-ever down
result, the detector indeed emits no event, yet the incident-tracking block
of `runChecks` creates an open Incident (the store was empty before). -/
theorem firstObservation_counterexample :
    (checkAndNotify [] "a" false).2 = none ∧
    (processIncidentResult 0 1 false { incidents := [], nextID := 1 }).incidents ≠ [] ∧
    countOpen 1 (processIncidentResult 0 1 false { incidents := [], nextID := 1 }).incidents
      = 1 := by
  decide

/-- **C1 (amended)**: the first ever probe result for a target produces no
transition event — the detector only records it as the baseline state —
but it can still create an Incident: a down result opens a new Incident
whenever the site has no open incident, including on the very first
observation, because incident creation is driven by `GetOngoing`, not by
the detector. -/
theorem firstObservation_spec :
    (∀ (prev : StateMap) (name : String) (u : Bool), lookupState prev name = none →
      (checkAndNotify prev name u).2 = none ∧
      lookupState (checkAndNotify prev name u).1 name = some u) ∧
    (∀ (now sid : Int) (store : IncidentStore), getOngoing sid store.incidents = none →
      countOpen sid (processIncidentResult now sid false store).incidents = 1) := by
  constructor
  · intro prev name u h
    simp [checkAndNotify, h, lookupState_setState_self]
  · intro now sid store h
    simp only [processIncidentResult, Bool.not_false, if_true, h]
    rw [countOpen_append_one, (getOngoing_eq_none_iff sid store.incidents).mp h]
    simp [isOpenFor]

/-- Witness for `firstObservation_spec` at concrete inputs. -/
theorem firstObservation_spec_witness :
    ((checkAndNotify [] "a" false).2 = none ∧
      lookupState (checkAndNotify [] "a" false).1 "a" = some false) ∧
    countOpen 1 (processIncidentResult 7 1 false { incidents := [], nextID := 1 }).incidents
      = 1 :=
  ⟨firstObservation_spec.1 [] "a" false rfl,
   firstObservation_spec.2 7 1 { incidents := [], nextID := 1 } rfl⟩

/-- **C2**: processing any sequence of probe results from an empty incident
table leaves at most one open incident (null `end_time`) per target: a down
result opens a new incident only when `GetOngoing` finds none, and an up
result closes the open incident when one exists.  Since this holds for
every sequence, it holds after every prefix, i.e. at every point in time. -/
theorem atMostOneOpenIncident (obs : List ProbeObservation) (sid : Int) :
    countOpen sid (processAll obs { incidents := [], nextID := 1 }).incidents ≤ 1 :=
  processAll_invariant obs { incidents := [], nextID := 1 }
    (fun t => by simp [countOpen]) sid

/-- **C8**: from a previously recorded Up state, two consecutive down
results emit exactly one `went-down` event — on the first of the two — and
a down result never emits `went-down` when the recorded state is already
Down. -/
theorem consecutiveDown_oneEvent :
    (∀ (prev : StateMap) (name : String), lookupState prev name = some true →
      (checkAndNotify prev name false).2 = some .wentDown ∧
      (checkAndNotify (checkAndNotify prev name false).1 name false).2 = none) ∧
    (∀ (prev : StateMap) (name : String), lookupState prev name = some false →
      (checkAndNotify prev name false).2 ≠ some .wentDown) := by
  constructor
  · intro prev name h
    constructor
    · simp [checkAndNotify, h]
    · simp [checkAndNotify, h, lookupState_setState_self]
  · intro prev name h
    simp [checkAndNotify, h]

/-- Witness for `consecutiveDown_oneEvent` at concrete inputs. -/
theorem consecutiveDown_oneEvent_witness :
    ((checkAndNotify [("a", true)] "a" false).2 = some .wentDown ∧
      (checkAndNotify (checkAndNotify [("a", true)] "a" false).1 "a" false).2 = none) ∧
    (checkAndNotify [("a", false)] "a" false).2 ≠ some .wentDown :=
  ⟨consecutiveDown_oneEvent.1 [("a", true)] "a" (by decide),
   consecutiveDown_oneEvent.2 [("a", false)] "a" (by decide)⟩

/-! ## C3: retention cleanup boundary -/

theorem length_filter_not_add_length_filter {α : Type} (p : α → Bool) (l : List α) :
    (l.filter fun a => !p a).length + (l.filter p).length = l.length := by
  induction l with
  | nil => rfl
  | cons x t ih => by_cases h : p x <;> simp [List.filter_cons, h, ← ih] <;> omega

/-- **C3 (counterexample)**: the claim "retention cleanup never deletes a
ProbeResult whose timestamp falls within today's calendar date; with N = 0
no row from the current day is deleted" is false: at noon (t = 43200) of
day 0, `DeleteOlderThan(0)` deletes the record taken at midnight of the
same calendar day, because the cutoff is the instant `now`, not the day
boundary. -/
theorem retentionToday_counterexample :
    dayOf 0 = dayOf 43200 ∧
    (uptimeDeleteOlderThan 0 43200 [⟨1, 0, 200, true, 10⟩]).2 = 1 ∧
    (uptimeDeleteOlderThan 0 43200 [⟨1, 0, 200, true, 10⟩]).1 = [] := by
  decide

/-- **C3 (amended)**: retention cleanup with horizon N deletes exactly the
probe-result rows with timestamp strictly before the cutoff
`now - N days`; the cutoff is a time instant (the current time-of-day N
days back), not a calendar-date boundary, so with N = 0 rows from earlier
today are deleted.  Rows at or after the cutoff all survive. -/
theorem retention_deletes_strictly_before_cutoff (days now : Int)
    (rows : List UptimeRecord) :
    (∀ r, r ∈ (uptimeDeleteOlderThan days now rows).1 ↔
      r ∈ rows ∧ ¬ r.timestamp < now - days * secondsPerDay) ∧
    (uptimeDeleteOlderThan days now rows).1.length + (uptimeDeleteOlderThan days now rows).2
      = rows.length := by
  constructor
  · intro r
    simp [uptimeDeleteOlderThan, List.mem_filter]
  · exact length_filter_not_add_length_filter _ rows

/-- Witness for `retention_deletes_strictly_before_cutoff` at concrete
inputs. -/
theorem retention_deletes_strictly_before_cutoff_witness :
    ((⟨1, 0, 200, true, 10⟩ : UptimeRecord) ∈
        (uptimeDeleteOlderThan 1 86400 [⟨1, 0, 200, true, 10⟩]).1 ↔
      (⟨1, 0, 200, true, 10⟩ : UptimeRecord) ∈ [(⟨1, 0, 200, true, 10⟩ : UptimeRecord)] ∧
      ¬ (0 : Int) < 86400 - 1 * secondsPerDay) ∧
    (uptimeDeleteOlderThan 1 86400 [⟨1, 0, 200, true, 10⟩]).1.length +
      (uptimeDeleteOlderThan 1 86400 [⟨1, 0, 200, true, 10⟩]).2 = 1 :=
  ⟨(retention_deletes_strictly_before_cutoff 1 86400 [⟨1, 0, 200, true, 10⟩]).1
      ⟨1, 0, 200, true, 10⟩,
   (retention_deletes_strictly_before_cutoff 1 86400 [⟨1, 0, 200, true, 10⟩]).2⟩

/-! ## C4: probe classification -/

/-- **C4 (counterexample)**: the claim "an HTTP response with status ≥ 400
yields is_up=false with http_status equal to the observed status code" is
false: for an HTTP 500 response, `CheckSite` returns `StatusCode: 0`, the
same as for a transport error — the observed code is discarded. -/
theorem checkSite_counterexample :
    (checkSite "s" "u" 7 (.response 500)).isUp = false ∧
    (checkSite "s" "u" 7 (.response 500)).statusCode = 0 ∧
    (0 : Int) ≠ 500 := by
  decide

/-- **C4 (amended)**: the probe is total (always returns a result); a
transport error yields is_up=false with http_status=0; an HTTP response
with status ≥ 400 also yields is_up=false with http_status=0 (the observed
code is discarded, identically to transport errors); a response with
status in [200,400) yields is_up=true with the observed code. -/
theorem checkSite_classification :
    (∀ (name url : String) (lat : Int),
      checkSite name url lat .transportError = ⟨name, url, 0, lat, false⟩) ∧
    (∀ (name url : String) (lat s : Int), 400 ≤ s →
      (checkSite name url lat (.response s)).statusCode = 0 ∧
      (checkSite name url lat (.response s)).isUp = false) ∧
    (∀ (name url : String) (lat s : Int), 200 ≤ s → s < 400 →
      (checkSite name url lat (.response s)).statusCode = s ∧
      (checkSite name url lat (.response s)).isUp = true) := by
  refine ⟨fun name url lat => rfl, fun name url lat s h => ?_, fun name url lat s h1 h2 => ?_⟩
  · simp [checkSite, h]
  · simp [checkSite, show ¬ 400 ≤ s by omega]

/-- Witness for `checkSite_classification` at concrete inputs. -/
theorem checkSite_classification_witness :
    checkSite "a" "u" 3 .transportError = ⟨"a", "u", 0, 3, false⟩ ∧
    ((checkSite "a" "u" 3 (.response 500)).statusCode = 0 ∧
      (checkSite "a" "u" 3 (.response 500)).isUp = false) ∧
    ((checkSite "a" "u" 3 (.response 200)).statusCode = 200 ∧
      (checkSite "a" "u" 3 (.response 200)).isUp = true) :=
  ⟨checkSite_classification.1 "a" "u" 3,
   checkSite_classification.2.1 "a" "u" 3 500 (by decide),
   checkSite_classification.2.2 "a" "u" 3 200 (by decide) (by decide)⟩

/-! ## C9: cleanup order and fail-fast -/

/-- **C9**: `CleanupOldData` deletes its five categories in the fixed
source order (uptime records, incidents, summaries, notification logs,
audit logs), and when a category's delete returns an error the run stops
and returns that error.  In each failure clause the deletes of the later
categories are universally quantified and unconstrained, so the outcome
provably does not depend on them: they are never attempted. -/
theorem cleanup_fixed_order_fail_fast (del : CleanupCategory → Except String Int) :
    (∀ res, cleanupOldData del = .ok res → res.map Prod.fst = cleanupOrder) ∧
    (∀ e, del .uptimeRecords = .error e → cleanupOldData del = .error e) ∧
    (∀ n1 e, del .uptimeRecords = .ok n1 → del .incidents = .error e →
      cleanupOldData del = .error e) ∧
    (∀ n1 n2 e, del .uptimeRecords = .ok n1 → del .incidents = .ok n2 →
      del .summaries = .error e → cleanupOldData del = .error e) ∧
    (∀ n1 n2 n3 e, del .uptimeRecords = .ok n1 → del .incidents = .ok n2 →
      del .summaries = .ok n3 → del .notificationLogs = .error e →
      cleanupOldData del = .error e) ∧
    (∀ n1 n2 n3 n4 e, del .uptimeRecords = .ok n1 → del .incidents = .ok n2 →
      del .summaries = .ok n3 → del .notificationLogs = .ok n4 →
      del .auditLogs = .error e → cleanupOldData del = .error e) := by
  refine ⟨?_, ?_, ?_, ?_, ?_, ?_⟩
  · intro res h
    unfold cleanupOldData at h
    cases h1 : del .uptimeRecords with
    | error e => rw [h1] at h; cases h
    | ok n1 =>
        rw [h1] at h
        cases h2 : del .incidents with
        | error e => rw [h2] at h; cases h
        | ok n2 =>
            rw [h2] at h
            cases h3 : del .summaries with
            | error e => rw [h3] at h; cases h
            | ok n3 =>
                rw [h3] at h
                cases h4 : del .notificationLogs with
                | error e => rw [h4] at h; cases h
                | ok n4 =>
                    rw [h4] at h
                    cases h5 : del .auditLogs with
                    | error e => rw [h5] at h; cases h
                    | ok n5 =>
                        rw [h5] at h
                        cases h
                        rfl
  · intro e h1
    unfold cleanupOldData
    rw [h1]
  · intro n1 e h1 h2
    unfold cleanupOldData
    rw [h1, h2]
  · intro n1 n2 e h1 h2 h3
    unfold cleanupOldData
    rw [h1, h2, h3]
  · intro n1 n2 n3 e h1 h2 h3 h4
    unfold cleanupOldData
    rw [h1, h2, h3, h4]
  · intro n1 n2 n3 n4 e h1 h2 h3 h4 h5
    unfold cleanupOldData
    rw [h1, h2, h3, h4, h5]

/-- Witness for `cleanup_fixed_order_fail_fast`: a run whose incident
delete fails returns that error. -/
theorem cleanup_fixed_order_fail_fast_witness :
    cleanupOldData
        (fun c => match c with
          | .uptimeRecords => .ok 3
          | .incidents => .error "disk error"
          | _ => .ok 0)
      = .error "disk error" :=
  (cleanup_fixed_order_fail_fast
      (fun c => match c with
        | .uptimeRecords => .ok 3
        | .incidents => .error "disk error"
        | _ => .ok 0)).2.2.1 3 "disk error" rfl rfl

/-! ## C10: mean time to recovery -/

theorem foldl_filter_map_sum {α : Type} (p : α → Bool) (f : α → Int) (l : List α)
    (a : Int) :
    l.foldl (fun acc i => if p i then acc + f i else acc) a
      = a + ((l.filter p).map f).sum := by
  induction l generalizing a with
  | nil => simp
  | cons x t ih =>
      rw [List.foldl_cons, ih]
      by_cases h : p x
      · simp [List.filter_cons, h]
        ring
      · simp [List.filter_cons, h]

/-- **C10**: over a period with at least one incident, `GetMTTR` returns
the sum of `duration_seconds` over the period's incidents with non-null
`end_time`, truncatedly divided by the count of all the period's incidents
— open incidents contribute nothing to the numerator but are counted in
the denominator. -/
theorem getMTTR_spec (sid s e : Int) (incs : List DowntimeIncident)
    (h : incidentGetByDateRange sid s e incs ≠ []) :
    getMTTRForPeriod sid s e incs =
      ((((incidentGetByDateRange sid s e incs).filter fun (i : DowntimeIncident) => i.endTime.isSome).map
          fun (i : DowntimeIncident) => i.durationSeconds).sum).tdiv
        ((incidentGetByDateRange sid s e incs).length : Int) := by
  unfold getMTTRForPeriod getMTTR
  rw [if_neg (by simpa using h)]
  rw [foldl_filter_map_sum (fun (i : DowntimeIncident) => i.endTime.isSome)
    (fun (i : DowntimeIncident) => i.durationSeconds)]
  rw [Int.zero_add]

/-- Witness for `getMTTR_spec` at concrete inputs: one closed incident of
5 seconds and one open incident give an MTTR of 5/2 seconds, truncated. -/
theorem getMTTR_spec_witness :
    getMTTRForPeriod 1 0 100 [⟨1, 1, 5, some 10, 5⟩, ⟨2, 1, 7, none, 0⟩] =
      ((((incidentGetByDateRange 1 0 100
              [⟨1, 1, 5, some 10, 5⟩, ⟨2, 1, 7, none, 0⟩]).filter
            fun (i : DowntimeIncident) => i.endTime.isSome).map
          fun (i : DowntimeIncident) => i.durationSeconds).sum).tdiv
        ((incidentGetByDateRange 1 0 100
            [⟨1, 1, 5, some 10, 5⟩, ⟨2, 1, 7, none, 0⟩]).length : Int) :=
  getMTTR_spec 1 0 100 [⟨1, 1, 5, some 10, 5⟩, ⟨2, 1, 7, none, 0⟩] (by decide)

/-! ## C5, C6: daily-summary metric lemmas -/

theorem summaryStep_successfulChecks (acc : LatencyAcc) (r : UptimeRecord) :
    (summaryStep acc r).successfulChecks
      = acc.successfulChecks + (if is2xxSuccess r then 1 else 0) := by
  by_cases h2 : is2xxSuccess r <;> by_cases h0 : 0 < r.latencyMs <;>
    simp [summaryStep, h2, h0]

theorem summaryStep_totalLatency (acc : LatencyAcc) (r : UptimeRecord) :
    (summaryStep acc r).totalLatency
      = acc.totalLatency + (if 0 < r.latencyMs then r.latencyMs else 0) := by
  by_cases h2 : is2xxSuccess r <;> by_cases h0 : 0 < r.latencyMs <;>
    simp [summaryStep, h2, h0]

theorem summaryStep_minLatency (acc : LatencyAcc) (r : UptimeRecord) :
    (summaryStep acc r).minLatency
      = if 0 < r.latencyMs then
          (if r.latencyMs < acc.minLatency then r.latencyMs else acc.minLatency)
        else acc.minLatency := by
  by_cases h2 : is2xxSuccess r <;> by_cases h0 : 0 < r.latencyMs <;>
    simp [summaryStep, h2, h0]

theorem summaryStep_maxLatency (acc : LatencyAcc) (r : UptimeRecord) :
    (summaryStep acc r).maxLatency
      = if 0 < r.latencyMs then
          (if acc.maxLatency < r.latencyMs then r.latencyMs else acc.maxLatency)
        else acc.maxLatency := by
  by_cases h2 : is2xxSuccess r <;> by_cases h0 : 0 < r.latencyMs <;>
    simp [summaryStep, h2, h0]

theorem summaryFold_spec (l : List UptimeRecord) (acc : LatencyAcc) :
    (l.foldl summaryStep acc).successfulChecks
        = acc.successfulChecks + (l.filter is2xxSuccess).length ∧
    (l.foldl summaryStep acc).totalLatency = acc.totalLatency + (nonzeroLatencies l).sum ∧
    (l.foldl summaryStep acc).minLatency
        = (nonzeroLatencies l).foldl (fun m x => if x < m then x else m) acc.minLatency ∧
    (l.foldl summaryStep acc).maxLatency
        = (nonzeroLatencies l).foldl (fun m x => if m < x then x else m) acc.maxLatency := by
  induction l generalizing acc with
  | nil => simp [nonzeroLatencies]
  | cons r t ih =>
      obtain ⟨ih1, ih2, ih3, ih4⟩ := ih (summaryStep acc r)
      rw [List.foldl_cons]
      refine ⟨?_, ?_, ?_, ?_⟩
      · rw [ih1, summaryStep_successfulChecks]
        by_cases h : is2xxSuccess r
        all_goals simp [List.filter_cons, h]
        all_goals try omega
      · rw [ih2, summaryStep_totalLatency]
        by_cases h : (0 : Int) < r.latencyMs
        · simp [nonzeroLatencies, List.filter_cons, h]
          ring
        · simp [nonzeroLatencies, List.filter_cons, h]
      · rw [ih3, summaryStep_minLatency]
        by_cases h : (0 : Int) < r.latencyMs <;>
          simp [nonzeroLatencies, List.filter_cons, h]
      · rw [ih4, summaryStep_maxLatency]
        by_cases h : (0 : Int) < r.latencyMs <;>
          simp [nonzeroLatencies, List.filter_cons, h]

theorem foldl_min_spec (l : List Int) (M : Int) :
    l.foldl (fun m x => if x < m then x else m) M ≤ M ∧
    (∀ x ∈ l, l.foldl (fun m x => if x < m then x else m) M ≤ x) ∧
    (l.foldl (fun m x => if x < m then x else m) M = M ∨
      l.foldl (fun m x => if x < m then x else m) M ∈ l) := by
  induction l generalizing M with
  | nil => simp
  | cons y t ih =>
      rw [List.foldl_cons]
      obtain ⟨ih1, ih2, ih3⟩ := ih (if y < M then y else M)
      have hle : (if y < M then y else M) ≤ M := by split <;> omega
      have hley : (if y < M then y else M) ≤ y := by split <;> omega
      refine ⟨le_trans ih1 hle, ?_, ?_⟩
      · intro x hx
        rcases List.mem_cons.mp hx with rfl | hx2
        · exact le_trans ih1 hley
        · exact ih2 x hx2
      · rcases ih3 with h | h
        · by_cases hy : y < M
          · rw [h, if_pos hy]
            exact Or.inr (List.mem_cons_self _ _)
          · rw [h, if_neg hy]
            exact Or.inl rfl
        · exact Or.inr (List.mem_cons_of_mem _ h)

theorem foldl_max_spec (l : List Int) (M : Int) :
    M ≤ l.foldl (fun m x => if m < x then x else m) M ∧
    (∀ x ∈ l, x ≤ l.foldl (fun m x => if m < x then x else m) M) ∧
    (l.foldl (fun m x => if m < x then x else m) M = M ∨
      l.foldl (fun m x => if m < x then x else m) M ∈ l) := by
  induction l generalizing M with
  | nil => simp
  | cons y t ih =>
      rw [List.foldl_cons]
      obtain ⟨ih1, ih2, ih3⟩ := ih (if M < y then y else M)
      have hle : M ≤ (if M < y then y else M) := by split <;> omega
      have hley : y ≤ (if M < y then y else M) := by split <;> omega
      refine ⟨le_trans hle ih1, ?_, ?_⟩
      · intro x hx
        rcases List.mem_cons.mp hx with rfl | hx2
        · exact le_trans hley ih1
        · exact ih2 x hx2
      · rcases ih3 with h | h
        · by_cases hy : M < y
          · rw [h, if_pos hy]
            exact Or.inr (List.mem_cons_self _ _)
          · rw [h, if_neg hy]
            exact Or.inl rfl
        · exact Or.inr (List.mem_cons_of_mem _ h)

theorem nonzeroLatencies_pos (l : List UptimeRecord) (x : Int)
    (hx : x ∈ nonzeroLatencies l) : 0 < x := by
  simp only [nonzeroLatencies, List.mem_map, List.mem_filter] at hx
  obtain ⟨r, ⟨hr, hpos⟩, rfl⟩ := hx
  exact of_decide_eq_true hpos

theorem generateDailySummary_key (sid d : Int) (uptimeRows : List UptimeRecord)
    (incidentRows : List DowntimeIncident) (s : UptimeSummary)
    (hs : generateDailySummary sid d uptimeRows incidentRows = some s) :
    s.siteID = sid ∧ s.date = d := by
  simp only [generateDailySummary] at hs
  by_cases he : (uptimeGetByDateRange sid (dayStart d) (dayEnd d) uptimeRows).isEmpty
  · rw [if_pos he] at hs
    cases hs
  · rw [if_neg he] at hs
    obtain rfl := Option.some.inj hs
    exact ⟨rfl, rfl⟩

/-- **C5 (counterexample)**: the claim "the average equals the sum of the
non-zero latencies divided by the number of records whose latency is
non-zero" is false: for one record with latency 0 and one with latency
100, `GenerateDailySummary` reports an average of 100/2 = 50 (it divides
by `totalChecks`, the count of all records), while the claim's formula
gives 100/1 = 100. -/
theorem dailyAvgLatency_counterexample :
    (generateDailySummary 1 0 [⟨1, 0, 200, true, 0⟩, ⟨1, 10, 200, true, 100⟩] []).map
        (fun s => s.avgLatencyMs) = some 50 ∧
    claimedAvgLatency (dayRecords 1 0 [⟨1, 0, 200, true, 0⟩, ⟨1, 10, 200, true, 100⟩])
      = 100 ∧
    (50 : ℚ) ≠ 100 := by
  refine ⟨?_, ?_, by norm_num⟩
  · norm_num [generateDailySummary, uptimeGetByDateRange, incidentGetByDateRange,
      dayStart, dayEnd, summaryStep, is2xxSuccess, int64Max, secondsPerDay]
  · norm_num [claimedAvgLatency, nonzeroLatencies, dayRecords, uptimeGetByDateRange,
      dayStart, dayEnd, secondsPerDay]

/-- **C5 (amended)**: for a (target, day) with at least one probe record,
the summary's minimum and maximum latency are taken over the records with
non-zero latency (0 when there are none), but the average divides the sum
of the non-zero latencies by `totalChecks` — the count of **all** the
day's records, zero-latency ones included — not by the count of non-zero
latencies.  (The `int64Max` bound discharges the code's sentinel for the
minimum scan; every Go `int64` latency satisfies it.) -/
theorem dailySummary_latency_spec (sid d : Int) (uptimeRows : List UptimeRecord)
    (incidentRows : List DowntimeIncident) (s : UptimeSummary)
    (hs : generateDailySummary sid d uptimeRows incidentRows = some s)
    (hM : ∀ x ∈ nonzeroLatencies (dayRecords sid d uptimeRows), x < int64Max) :
    s.avgLatencyMs = ((nonzeroLatencies (dayRecords sid d uptimeRows)).sum : ℚ)
        / ((dayRecords sid d uptimeRows).length : ℚ) ∧
    (nonzeroLatencies (dayRecords sid d uptimeRows) = [] →
      s.minLatencyMs = 0 ∧ s.maxLatencyMs = 0) ∧
    (nonzeroLatencies (dayRecords sid d uptimeRows) ≠ [] →
      (s.minLatencyMs ∈ nonzeroLatencies (dayRecords sid d uptimeRows) ∧
        ∀ x ∈ nonzeroLatencies (dayRecords sid d uptimeRows), s.minLatencyMs ≤ x) ∧
      (s.maxLatencyMs ∈ nonzeroLatencies (dayRecords sid d uptimeRows) ∧
        ∀ x ∈ nonzeroLatencies (dayRecords sid d uptimeRows), x ≤ s.maxLatencyMs)) := by
  simp only [dayRecords] at hM ⊢
  simp only [generateDailySummary] at hs
  by_cases he : (uptimeGetByDateRange sid (dayStart d) (dayEnd d) uptimeRows).isEmpty
  · rw [if_pos he] at hs
    cases hs
  · rw [if_neg he] at hs
    obtain rfl := Option.some.inj hs
    have hne : uptimeGetByDateRange sid (dayStart d) (dayEnd d) uptimeRows ≠ [] := by
      intro hnil
      rw [hnil] at he
      exact he rfl
    have hlen : 0 < (uptimeGetByDateRange sid (dayStart d) (dayEnd d) uptimeRows).length :=
      List.length_pos.mpr hne
    obtain ⟨hsucc, htot, hmin, hmax⟩ :=
      summaryFold_spec (uptimeGetByDateRange sid (dayStart d) (dayEnd d) uptimeRows)
        ⟨0, 0, int64Max, 0⟩
    refine ⟨?_, ?_, ?_⟩
    · show (if 0 < (uptimeGetByDateRange sid (dayStart d) (dayEnd d) uptimeRows).length
          then _ else (0 : ℚ)) = _
      rw [if_pos hlen, htot]
      norm_num
    · intro hnz
      constructor
      · show (if (List.foldl summaryStep ⟨0, 0, int64Max, 0⟩
            (uptimeGetByDateRange sid (dayStart d) (dayEnd d) uptimeRows)).minLatency
              = int64Max then 0 else _) = 0
        rw [hmin, hnz]
        simp
      · show (List.foldl summaryStep ⟨0, 0, int64Max, 0⟩
            (uptimeGetByDateRange sid (dayStart d) (dayEnd d) uptimeRows)).maxLatency = 0
        rw [hmax, hnz]
        rfl
    · intro hnz
      obtain ⟨y, hy⟩ := List.exists_mem_of_ne_nil _ hnz
      obtain ⟨hm1, hm2, hm3⟩ := foldl_min_spec
        (nonzeroLatencies (uptimeGetByDateRange sid (dayStart d) (dayEnd d) uptimeRows))
        int64Max
      obtain ⟨hx1, hx2, hx3⟩ := foldl_max_spec
        (nonzeroLatencies (uptimeGetByDateRange sid (dayStart d) (dayEnd d) uptimeRows)) 0
      have hvne : (nonzeroLatencies
          (uptimeGetByDateRange sid (dayStart d) (dayEnd d) uptimeRows)).foldl
            (fun m x => if x < m then x else m) int64Max ≠ int64Max :=
        ne_of_lt (lt_of_le_of_lt (hm2 y hy) (hM y hy))
      have hminval : (List.foldl summaryStep ⟨0, 0, int64Max, 0⟩
          (uptimeGetByDateRange sid (dayStart d) (dayEnd d) uptimeRows)).minLatency
            = (nonzeroLatencies
              (uptimeGetByDateRange sid (dayStart d) (dayEnd d) uptimeRows)).foldl
                (fun m x => if x < m then x else m) int64Max := hmin
      constructor
      · show (if (List.foldl summaryStep ⟨0, 0, int64Max, 0⟩
            (uptimeGetByDateRange sid (dayStart d) (dayEnd d) uptimeRows)).minLatency
              = int64Max then 0 else _) ∈ _ ∧ _
        rw [hminval, if_neg hvne]
        refine ⟨?_, hm2⟩
        rcases hm3 with h | h
        · exact absurd h hvne
        · exact h
      · show (List.foldl summaryStep ⟨0, 0, int64Max, 0⟩
            (uptimeGetByDateRange sid (dayStart d) (dayEnd d) uptimeRows)).maxLatency
              ∈ _ ∧ _
        rw [hmax]
        refine ⟨?_, hx2⟩
        rcases hx3 with h | h
        · exfalso
          have hy0 : 0 < y := nonzeroLatencies_pos _ y hy
          have := hx2 y hy
          omega
        · exact h

/-- Witness for `dailySummary_latency_spec` at concrete inputs: one record
with latency 5. -/
theorem dailySummary_latency_spec_witness :
    ((⟨1, 0, 1, 1, 0, 100, 5, 5, 5, 0, 0⟩ : UptimeSummary).avgLatencyMs =
        ((nonzeroLatencies (dayRecords 1 0 [⟨1, 0, 200, true, 5⟩])).sum : ℚ)
          / ((dayRecords 1 0 [⟨1, 0, 200, true, 5⟩]).length : ℚ)) ∧
    (nonzeroLatencies (dayRecords 1 0 [⟨1, 0, 200, true, 5⟩]) = [] →
      (⟨1, 0, 1, 1, 0, 100, 5, 5, 5, 0, 0⟩ : UptimeSummary).minLatencyMs = 0 ∧
      (⟨1, 0, 1, 1, 0, 100, 5, 5, 5, 0, 0⟩ : UptimeSummary).maxLatencyMs = 0) ∧
    (nonzeroLatencies (dayRecords 1 0 [⟨1, 0, 200, true, 5⟩]) ≠ [] →
      ((⟨1, 0, 1, 1, 0, 100, 5, 5, 5, 0, 0⟩ : UptimeSummary).minLatencyMs ∈
          nonzeroLatencies (dayRecords 1 0 [⟨1, 0, 200, true, 5⟩]) ∧
        ∀ x ∈ nonzeroLatencies (dayRecords 1 0 [⟨1, 0, 200, true, 5⟩]),
          (⟨1, 0, 1, 1, 0, 100, 5, 5, 5, 0, 0⟩ : UptimeSummary).minLatencyMs ≤ x) ∧
      ((⟨1, 0, 1, 1, 0, 100, 5, 5, 5, 0, 0⟩ : UptimeSummary).maxLatencyMs ∈
          nonzeroLatencies (dayRecords 1 0 [⟨1, 0, 200, true, 5⟩]) ∧
        ∀ x ∈ nonzeroLatencies (dayRecords 1 0 [⟨1, 0, 200, true, 5⟩]),
          x ≤ (⟨1, 0, 1, 1, 0, 100, 5, 5, 5, 0, 0⟩ : UptimeSummary).maxLatencyMs)) :=
  dailySummary_latency_spec 1 0 [⟨1, 0, 200, true, 5⟩] [] ⟨1, 0, 1, 1, 0, 100, 5, 5, 5, 0, 0⟩
    (by norm_num [generateDailySummary, uptimeGetByDateRange, incidentGetByDateRange,
      dayStart, dayEnd, summaryStep, is2xxSuccess, int64Max, secondsPerDay])
    (by decide)

/-- **C6 (counterexample)**: the claim "downtime_minutes equals the summed
downtime of the incidents overlapping that day, including an incident that
started on an earlier day and extends into it" is false: an incident
starting at midnight of day 0 and ending at noon of day 1 (duration
129600 s = 2160 min) overlaps day 1, but `GenerateDailySummary` for day 1
reports `downtime_minutes = 0` and `incident_count = 0`, because
`Incident.GetByDateRange` filters on `start_time` only. -/
theorem dailyDowntime_counterexample :
    (generateDailySummary 1 1 [⟨1, 86400, 200, true, 10⟩]
        [⟨1, 1, 0, some 129600, 129600⟩]).map
        (fun s => (s.downtimeMinutes, s.incidentCount)) = some (0, 0) ∧
    claimedDowntimeMinutes 1 1 [⟨1, 1, 0, some 129600, 129600⟩] = 2160 ∧
    ((0 : Int) ≠ 2160) := by
  refine ⟨?_, by decide, by decide⟩
  norm_num [generateDailySummary, uptimeGetByDateRange, incidentGetByDateRange,
    dayStart, dayEnd, summaryStep, is2xxSuccess, int64Max, secondsPerDay, downtimeStep]

/-- **C6 (amended)**: for a (target, day) with at least one probe record,
the summary's `downtime_minutes` is the sum, over the incidents **starting
on** that day (per-incident truncated to whole minutes), of their full
recorded durations — incidents that started on an earlier day and extend
into the day are not counted, and open incidents (duration 0) contribute
nothing — while `incident_count` counts the incidents starting that day. -/
theorem dailySummary_downtime_spec (sid d : Int) (uptimeRows : List UptimeRecord)
    (incidentRows : List DowntimeIncident) (s : UptimeSummary)
    (hs : generateDailySummary sid d uptimeRows incidentRows = some s) :
    s.downtimeMinutes = (((dayIncidents sid d incidentRows).filter
        fun (i : DowntimeIncident) => decide (0 < i.durationSeconds)).map
        fun (i : DowntimeIncident) => i.durationSeconds.tdiv 60).sum ∧
    s.incidentCount = (dayIncidents sid d incidentRows).length := by
  simp only [dayIncidents]
  simp only [generateDailySummary] at hs
  by_cases he : (uptimeGetByDateRange sid (dayStart d) (dayEnd d) uptimeRows).isEmpty
  · rw [if_pos he] at hs
    cases hs
  · rw [if_neg he] at hs
    obtain rfl := Option.some.inj hs
    refine ⟨?_, rfl⟩
    show (incidentGetByDateRange sid (dayStart d) (dayEnd d) incidentRows).foldl
        downtimeStep 0 = _
    have hfold := foldl_filter_map_sum
      (fun (i : DowntimeIncident) => decide (0 < i.durationSeconds))
      (fun (i : DowntimeIncident) => i.durationSeconds.tdiv 60)
      (incidentGetByDateRange sid (dayStart d) (dayEnd d) incidentRows) 0
    rw [Int.zero_add] at hfold
    exact hfold

/-- Witness for `dailySummary_downtime_spec` at concrete inputs: one
incident of 120 seconds starting on the summarized day. -/
theorem dailySummary_downtime_spec_witness :
    (⟨1, 0, 1, 1, 0, 100, 5, 5, 5, 2, 1⟩ : UptimeSummary).downtimeMinutes =
      (((dayIncidents 1 0 [⟨1, 1, 0, some 120, 120⟩]).filter
          fun (i : DowntimeIncident) => decide (0 < i.durationSeconds)).map
          fun (i : DowntimeIncident) => i.durationSeconds.tdiv 60).sum ∧
    (⟨1, 0, 1, 1, 0, 100, 5, 5, 5, 2, 1⟩ : UptimeSummary).incidentCount =
      (dayIncidents 1 0 [⟨1, 1, 0, some 120, 120⟩]).length :=
  dailySummary_downtime_spec 1 0 [⟨1, 0, 200, true, 5⟩] [⟨1, 1, 0, some 120, 120⟩]
    ⟨1, 0, 1, 1, 0, 100, 5, 5, 5, 2, 1⟩
    (by
      norm_num [generateDailySummary, uptimeGetByDateRange, incidentGetByDateRange,
        dayStart, dayEnd, summaryStep, is2xxSuccess, int64Max, secondsPerDay, downtimeStep]
      decide)

/-! ## C7: aggregation idempotence -/

theorem summaryKeyMatches_self (s : UptimeSummary) : summaryKeyMatches s s = true := by
  simp [summaryKeyMatches]

theorem createSummary_idem (s : UptimeSummary) (t : List UptimeSummary) :
    createSummary s (createSummary s t) = createSummary s t := by
  unfold createSummary
  by_cases h : t.any (summaryKeyMatches s)
  · rw [if_pos h]
    have hany2 : (t.map fun r => if summaryKeyMatches s r then s else r).any
        (summaryKeyMatches s) = true := by
      obtain ⟨r, hr, hm⟩ := List.any_eq_true.mp h
      refine List.any_eq_true.mpr ⟨s, ?_, summaryKeyMatches_self s⟩
      refine List.mem_map.mpr ⟨r, hr, ?_⟩
      rw [if_pos hm]
    rw [if_pos hany2, List.map_map]
    refine List.map_congr_left ?_
    intro r _
    by_cases hm : summaryKeyMatches s r
    · simp [Function.comp, hm, summaryKeyMatches_self]
    · simp [Function.comp, hm]
  · rw [if_neg h]
    have hall : ∀ r ∈ t, ¬ summaryKeyMatches s r = true := by
      intro r hr hc
      exact h (List.any_eq_true.mpr ⟨r, hr, hc⟩)
    have hany2 : (t ++ [s]).any (summaryKeyMatches s) = true := by
      simp [summaryKeyMatches_self]
    rw [if_pos hany2, List.map_append]
    congr 1
    · conv_rhs => rw [← List.map_id t]
      refine List.map_congr_left ?_
      intro r hr
      rw [if_neg (hall r hr)]
      rfl
    · simp [summaryKeyMatches_self]

theorem countKey_eq_filter_keyMatches (sid d : Int) (s : UptimeSummary)
    (hsid : s.siteID = sid) (hd : s.date = d) (t : List UptimeSummary) :
    countKey sid d t = (t.filter (summaryKeyMatches s)).length := by
  unfold countKey
  congr 1
  refine List.filter_congr ?_
  intro r _
  simp [summaryKeyMatches, hsid, hd]

theorem filter_keyMatches_map_update (s : UptimeSummary) (t : List UptimeSummary) :
    ((t.map fun r => if summaryKeyMatches s r then s else r).filter
        (summaryKeyMatches s)).length = (t.filter (summaryKeyMatches s)).length := by
  induction t with
  | nil => rfl
  | cons r t ih =>
      rw [List.map_cons, List.filter_cons, List.filter_cons]
      by_cases hm : summaryKeyMatches s r
      · rw [if_pos hm]
        simp [summaryKeyMatches_self, hm, ih]
      · rw [if_neg hm]
        simp only [Bool.not_eq_true] at hm
        simp [hm, ih]

theorem countKey_createSummary (sid d : Int) (s : UptimeSummary)
    (hsid : s.siteID = sid) (hd : s.date = d) (t : List UptimeSummary)
    (hc : countKey sid d t ≤ 1) :
    countKey sid d (createSummary s t) = 1 := by
  unfold createSummary
  by_cases h : t.any (summaryKeyMatches s)
  · rw [if_pos h]
    rw [countKey_eq_filter_keyMatches sid d s hsid hd] at hc ⊢
    rw [filter_keyMatches_map_update]
    obtain ⟨r, hr, hm⟩ := List.any_eq_true.mp h
    have hpos : 0 < (t.filter (summaryKeyMatches s)).length :=
      List.length_pos.mpr (List.ne_nil_of_mem (List.mem_filter.mpr ⟨hr, hm⟩))
    omega
  · rw [if_neg h]
    rw [countKey_eq_filter_keyMatches sid d s hsid hd]
    rw [List.filter_append]
    have hnil : t.filter (summaryKeyMatches s) = [] := by
      refine List.filter_eq_nil_iff.mpr ?_
      intro r hr hc2
      exact h (List.any_eq_true.mpr ⟨r, hr, hc2⟩)
    rw [hnil]
    simp [summaryKeyMatches_self]

/-- **C7**: running daily aggregation twice for the same (target, date)
over the same probe records is idempotent — the second run leaves the
summary table exactly as the first run did (hence with the same computed
values) — and when the day has records, the table holds exactly one row
for that (target, date) after a run: the upsert overwrites rather than
duplicating.  (The hypothesis that the table starts with at most one such
row is the uniqueness invariant of `uptime_summary`.) -/
theorem aggregation_idempotent (sid d : Int) (uptimeRows : List UptimeRecord)
    (incidentRows : List DowntimeIncident) (table : List UptimeSummary)
    (hcount : countKey sid d table ≤ 1) :
    runAggregation sid d uptimeRows incidentRows
        (runAggregation sid d uptimeRows incidentRows table)
      = runAggregation sid d uptimeRows incidentRows table ∧
    (∀ s, generateDailySummary sid d uptimeRows incidentRows = some s →
      countKey sid d (runAggregation sid d uptimeRows incidentRows table) = 1) := by
  cases hgen : generateDailySummary sid d uptimeRows incidentRows with
  | none =>
      refine ⟨by simp [runAggregation, hgen], ?_⟩
      intro s hs
      cases hs
  | some s0 =>
      obtain ⟨hsid, hd⟩ := generateDailySummary_key sid d uptimeRows incidentRows s0 hgen
      refine ⟨?_, ?_⟩
      · simp only [runAggregation, hgen]
        exact createSummary_idem s0 table
      · intro s hs
        obtain rfl := Option.some.inj hs
        simp only [runAggregation, hgen]
        exact countKey_createSummary sid d s0 hsid hd table hcount

/-- Witness for `aggregation_idempotent` at concrete inputs: one record,
empty incident table, empty summary table. -/
theorem aggregation_idempotent_witness :
    runAggregation 1 0 [⟨1, 0, 200, true, 5⟩] []
        (runAggregation 1 0 [⟨1, 0, 200, true, 5⟩] [] [])
      = runAggregation 1 0 [⟨1, 0, 200, true, 5⟩] [] [] ∧
    (∀ s, generateDailySummary 1 0 [⟨1, 0, 200, true, 5⟩] [] = some s →
      countKey 1 0 (runAggregation 1 0 [⟨1, 0, 200, true, 5⟩] [] []) = 1) :=
  aggregation_idempotent 1 0 [⟨1, 0, 200, true, 5⟩] [] [] (by decide)

end Watchdog
